import Mathlib

/-!
Verification of the video-frame-extractor core: a shallow embedding of
`videos_processor.py` (frame sampling, PDF page layout, PPTX slide layout)
and of the orchestration loop in `app.py` (`VideoConverterWorker.run` /
`process_video`), together with theorems settling the specification claims.

Python floats are modelled as exact rationals, Python `int(...)` as
truncation toward zero, Python `//` and `%` on non-negative reals as
floor division and remainder, and fallible operations as `Option`.
-/

/-- Python `int(q)`: truncation toward zero. -/
def pyInt (q : ℚ) : ℤ := if 0 ≤ q then ⌊q⌋ else ⌈q⌉

/-- Python `a % b` for real operands (result has the sign of `b`; here used
with positive `b`): `a - b * ⌊a / b⌋`. -/
def pyMod (a b : ℚ) : ℚ := a - b * ⌊a / b⌋

/-- Python `f"{n:02}"`: zero-pad to width 2 (padding goes after a sign, but
for width 2 only non-negative single digits actually receive a pad). -/
def pad2 (n : ℤ) : String := if 0 ≤ n ∧ n < 10 then "0" ++ toString n else toString n

/-- Python `f"{n:05d}"` for the non-negative frame counter. -/
def pad5 (n : ℕ) : String :=
  let s := toString n
  String.mk (List.replicate (5 - s.length) '0') ++ s

/-- POSIX `os.path.join` on two components: `b` if it is absolute, else `a`
and `b` separated by a slash unless `a` is empty or already ends in one. -/
def ospJoin (a b : String) : String :=
  if b.toList.head? = some '/' then b
  else if a = "" ∨ a.toList.getLast? = some '/' then a ++ b
  else a ++ "/" ++ b

/-- POSIX `os.path.basename`: the part after the last `/`. -/
def osBasename (s : String) : String :=
  String.mk ((s.toList.reverse.takeWhile (fun c => c ≠ '/')).reverse)

/-- Index of the last `.` in a character list, if any. -/
def rfindDot (cs : List Char) : Option ℕ :=
  ((List.range cs.length).filter (fun i => cs.getD i ' ' = '.')).getLast?

/-- CPython `os.path.splitext(s)[0]` for a path without separators: drop the
final `.ext` unless every character before the last dot is itself a dot. -/
def splitextStem (s : String) : String :=
  let cs := s.toList
  match rfindDot cs with
  | none => s
  | some i => if (cs.take i).any (fun c => c ≠ '.') then String.mk (cs.take i) else s

/-- The hours/minutes/seconds integers computed at line 167 of
`videos_processor.py`: `int(t // 3600)`, `int((t % 3600) // 60)`,
`int(t % 60)`. -/
def hmsOf (t : ℚ) : ℤ × ℤ × ℤ :=
  (⌊t / 3600⌋, ⌊pyMod t 3600 / 60⌋, pyInt (pyMod t 60))

/-- The timestamp string of line 167: zero-padded `HH:MM:SS`. -/
def timestampStr (t : ℚ) : String :=
  pad2 (hmsOf t).1 ++ ":" ++ pad2 (hmsOf t).2.1 ++ ":" ++ pad2 (hmsOf t).2.2

/-- Modelled from the spec: the zero-padded `HH:MM:SS` floor formatting with
`hours = floor(t/3600)`, `minutes = floor((t mod 3600)/60)`,
`seconds = floor(t mod 60)`; used to compare against `timestampStr`. -/
def specTimestampStr (t : ℚ) : String :=
  pad2 ⌊t / 3600⌋ ++ ":" ++ pad2 ⌊pyMod t 3600 / 60⌋ ++ ":" ++ pad2 ⌊pyMod t 60⌋

/-- Lexicographic order on hour/minute/second triples: the ordering of
timestamps read as times. -/
def hmsLe (a b : ℤ × ℤ × ℤ) : Prop :=
  a.1 < b.1 ∨ (a.1 = b.1 ∧ (a.2.1 < b.2.1 ∨ (a.2.1 = b.2.1 ∧ a.2.2 ≤ b.2.2)))

/-- The saved frame image path of line 170: `output_dir/frame_{count:05d}.jpg`. -/
def frameName (outputDir : String) (count : ℕ) : String :=
  ospJoin outputDir ("frame_" ++ pad5 count ++ ".jpg")

/-- Abstraction of a `cv2.VideoCapture` source: whether it opens, its native
frame rate and frame count, and whether seek-and-decode succeeds at a given
frame index. -/
structure VideoSource where
  opened : Bool
  fps : ℚ
  totalFrames : ℕ
  readOk : ℕ → Bool

/-- Line 149 of `videos_processor.py`: `frame_interval = max(1, int(fps * interval))`. -/
def frame_interval (fps : ℚ) (interval : ℕ) : ℕ :=
  (max 1 (pyInt (fps * interval))).toNat

/-- The `while frame_count < total_frames` loop of `extract_frames`
(lines 158-177), with explicit fuel. Each iteration seeks and decodes the
frame at `count` (`break` on failure), computes the timestamp — in Python a
`ZeroDivisionError` escapes here when `fps = 0`, modelled by `none` — saves
the frame image, appends `(path, timestamp)` and advances by `stride`. -/
def extractLoop (src : VideoSource) (outDir : String) (stride : ℕ) :
    ℕ → ℕ → List (String × String) → Option (List (String × String))
  | 0, count, acc => if count < src.totalFrames then none else some acc
  | fuel + 1, count, acc =>
    if count < src.totalFrames then
      if src.readOk count then
        if src.fps = 0 then none
        else
          extractLoop src outDir stride fuel (count + stride)
            (acc ++ [(frameName outDir count, timestampStr ((count : ℚ) / src.fps))])
      else some acc
    else some acc

/-- `extract_frames` (lines 109-190): returns `[]` when the source cannot be
opened, otherwise runs the sampling loop; any exception raised inside
(modelled by the loop returning `none`) is caught and yields `[]`. -/
def extract_frames (src : VideoSource) (interval : ℕ) (outDir : String) :
    List (String × String) :=
  if !src.opened then []
  else
    (extractLoop src outDir (frame_interval src.fps interval) src.totalFrames 0 []).getD []

/-- Ceiling division on naturals. -/
def ceilDivNat (a b : ℕ) : ℕ := (a + b - 1) / b

/-- A picture placement on a slide, in EMU: the `width`/`height` computed by
the intelligent-scaling block (lines 77-82) and the centering offsets
`left`/`top` (lines 84-85). -/
structure PlacedImage where
  width : ℕ
  height : ℕ
  left : ℕ
  top : ℕ
deriving DecidableEq

/-- Lines 77-85 of `create_pptx_from_frames`: compare `frame_width/slide_width`
with `frame_height/slide_height`; on the strictly-greater side fit to the
slide width, otherwise fit to the slide height, truncating the derived
dimension with `int(...)`; then center with floor division by 2. -/
def placeImage (fw fh sw sh : ℕ) : PlacedImage :=
  let wh : ℕ × ℕ :=
    if (fw : ℚ) / (sw : ℚ) > (fh : ℚ) / (sh : ℚ) then
      (sw, (pyInt ((fh : ℚ) * ((sw : ℚ) / (fw : ℚ)))).toNat)
    else
      ((pyInt ((fw : ℚ) * ((sh : ℚ) / (fh : ℚ)))).toNat, sh)
  { width := wh.1, height := wh.2, left := (sw - wh.1) / 2, top := (sh - wh.2) / 2 }

/-- Default `python-pptx` slide width in EMU (`prs.slide_width`). -/
def pptxSlideW : ℕ := 9144000

/-- Default `python-pptx` slide height in EMU (`prs.slide_height`). -/
def pptxSlideH : ℕ := 6858000

/-- Content of one generated slide: `none` if the slide stayed blank because
`cv2.imread` failed for its frame, otherwise the picture placement and the
title text. -/
abbrev SlideContent : Type := Option (PlacedImage × String)

/-- The `for idx, frame_data in enumerate(frames)` loop of
`create_pptx_from_frames` (lines 62-93). A slide is appended first; if
`cv2.imread` fails the loop `continue`s, leaving the slide blank; a decoded
image with zero width and height would raise `ZeroDivisionError`
(line 82), modelled by `none`. -/
def pptxLoop (decodeDim : String → Option (ℕ × ℕ)) :
    ℕ → List (String × String) → List SlideContent → Option (List SlideContent)
  | _, [], acc => some acc
  | idx, (path, ts) :: rest, acc =>
    match decodeDim path with
    | none => pptxLoop decodeDim (idx + 1) rest (acc ++ [none])
    | some (fw, fh) =>
      if fw = 0 ∧ fh = 0 then none
      else
        pptxLoop decodeDim (idx + 1) rest
          (acc ++ [some (placeImage fw fh pptxSlideW pptxSlideH,
            "Frame " ++ toString (idx + 1) ++ " : " ++ ts)])

/-- `create_pptx_from_frames` (lines 56-106): computes the output path
`output_folder/{splitext(video_filename)[0]}.pptx`, builds one slide per
frame, and saves; any exception (zero-dimension decode, or a failing
`prs.save` modelled by `saveOk = false`) is caught and returns `None`. -/
def create_pptx_from_frames (decodeDim : String → Option (ℕ × ℕ)) (saveOk : Bool)
    (frames : List (String × String)) (video_filename output_folder : String) :
    Option (String × List SlideContent) :=
  let output_pptx := ospJoin output_folder (splitextStem video_filename ++ ".pptx")
  match pptxLoop decodeDim 0 frames [] with
  | none => none
  | some slides => if saveOk then some (output_pptx, slides) else none

/-- One image slot on a PDF page: the fixed placement of line 30
(`x=10, y=y_positions[j], w=190, h=80`) and the caption of line 35. -/
structure PdfSlot where
  y : ℕ
  w : ℕ
  h : ℕ
  caption : String
deriving DecidableEq

/-- The fixed vertical slot offsets of line 23. -/
def y_positions : List ℕ := [10, 90, 170]

/-- The inner `for j, frame_data in enumerate(frames[i:i+3])` loop
(lines 25-39): each frame of the page chunk either renders into slot `j`
or, if `pdf.image` raises, is skipped with a warning (`none`). -/
def renderPdfSlots (imgOk : String → Bool) :
    ℕ → List (String × String) → List (Option PdfSlot)
  | _, [] => []
  | j, (path, ts) :: rest =>
    (if imgOk path then
        some ⟨y_positions.getD j 0, 190, 80, "Frame: " ++ osBasename path ++ " : " ++ ts⟩
      else none) :: renderPdfSlots imgOk (j + 1) rest

/-- The page chunking of line 21, `for i in range(0, len(frames), 3)`:
consecutive groups of three frames. -/
def paginate : List (String × String) → List (List (String × String))
  | [] => []
  | [a] => [[a]]
  | [a, b] => [[a, b]]
  | a :: b :: c :: rest => [a, b, c] :: paginate rest

/-- `create_pdf_from_frames` (lines 13-52): computes the output path
`output_folder/{splitext(video_filename)[0]}.pdf`, renders one page per
chunk of three frames, and writes the file; a failing `pdf.output`
(modelled by `saveOk = false`) is caught and returns `None`. -/
def create_pdf_from_frames (imgOk : String → Bool) (saveOk : Bool)
    (frames : List (String × String)) (video_filename output_folder : String) :
    Option (String × List (List (Option PdfSlot))) :=
  let output_pdf := ospJoin output_folder (splitextStem video_filename ++ ".pdf")
  let pages := (paginate frames).map (renderPdfSlots imgOk 0)
  if saveOk then some (output_pdf, pages) else none

/-- The ambient I/O behaviour a batch runs against: which `VideoCapture`
source each video path opens, whether `pdf.image` succeeds on a given frame
image, what `cv2.imread` decodes a frame image to during slide layout, and
whether the two document saves succeed. -/
structure World where
  source : String → VideoSource
  imgOk : String → Bool
  decodeDim : String → Option (ℕ × ℕ)
  pdfSaveOk : Bool
  pptxSaveOk : Bool

/-- `VideoConverterWorker.process_video` (app.py lines 200-222): sample the
video (the scratch directory is the `extract_frames` default `"frames"`);
an empty run short-circuits to failure before any renderer is invoked;
otherwise dispatch on the output format and return the renderer's output
path. Python's falsy `False`/`None` results are both modelled as `none`. -/
def process_video (w : World) (output_format : String) (frame_interval_s : ℕ)
    (output_folder : String) (video_path : String) : Option String :=
  let frames := extract_frames (w.source video_path) frame_interval_s "frames"
  if frames = [] then none
  else
    let base_name := splitextStem (osBasename video_path)
    if output_format = "pdf" then
      (create_pdf_from_frames w.imgOk w.pdfSaveOk frames base_name output_folder).map Prod.fst
    else if output_format = "pptx" then
      (create_pptx_from_frames w.decodeDim w.pptxSaveOk frames base_name output_folder).map
        Prod.fst
    else none

/-- One emission of `detailed_progress_signal` (app.py lines 129-156). -/
structure Progress where
  total_files : ℕ
  processed_files : ℕ
  successful_conversions : ℕ
  failed_conversions : ℕ
deriving DecidableEq

/-- The per-task outcome: the task's video path and the result of
`process_video` for it, in submission order. -/
structure Outcome where
  path : String
  result : Option String
deriving DecidableEq

/-- The final-message counters of app.py lines 188-195. -/
structure Summary where
  total_files : ℕ
  successful : ℕ
  failed : ℕ
deriving DecidableEq

/-- The `for idx, video_path in enumerate(self.video_paths, 1)` loop of
`VideoConverterWorker.run` (app.py lines 138-156): process each task,
bump exactly one of the success/failure counters, then emit a progress
update; returns the emitted progress list, the outcomes in input order and
the final counter values. -/
def runLoop (w : World) (fmt : String) (interval : ℕ) (folder : String) (total : ℕ) :
    List String → ℕ → ℕ → ℕ → List Progress × List Outcome × ℕ × ℕ
  | [], _, succ, fail => ([], [], succ, fail)
  | p :: rest, processed, succ, fail =>
    let r := process_video w fmt interval folder p
    let succ2 := if r.isSome then succ + 1 else succ
    let fail2 := if r.isSome then fail else fail + 1
    let rec2 := runLoop w fmt interval folder total rest (processed + 1) succ2 fail2
    (⟨total, processed + 1, succ2, fail2⟩ :: rec2.1, ⟨p, r⟩ :: rec2.2.1, rec2.2.2)

/-- `VideoConverterWorker.run` (app.py lines 123-197): with an empty task
list the initial `progress_step = 100 / total_files` raises
`ZeroDivisionError` (modelled by `none`); otherwise the loop runs over all
tasks and the final summary reports the totals. -/
def workerRun (w : World) (fmt : String) (interval : ℕ) (folder : String)
    (paths : List String) : Option (List Progress × List Outcome × Summary) :=
  if paths = [] then none
  else
    let r := runLoop w fmt interval folder paths.length paths 0 0 0
    some (r.1, r.2.1, ⟨paths.length, r.2.2.1, r.2.2.2⟩)

/-- A healthy 30 fps, 300-frame source on which every read succeeds. -/
def src30 : VideoSource := ⟨true, 30, 300, fun _ => true⟩

/-- A source whose reported frame rate is 29.7 fps: `int(fps * 1)` and
`round(fps * 1)` disagree. -/
def src297 : VideoSource := ⟨true, 297 / 10, 59, fun _ => true⟩

/-- A pathological source reporting a negative frame rate. -/
def srcNegFps : VideoSource := ⟨true, -1, 1, fun _ => true⟩

/-- A source that fails to open. -/
def srcClosed : VideoSource := ⟨false, 30, 300, fun _ => true⟩

/-- A world for the three-task batch example: every path opens a healthy
source except `"b.mp4"`, which is unreadable; rendering always succeeds. -/
def wEx : World :=
  ⟨fun p => if p = "b.mp4" then srcClosed else src30,
   fun _ => true, fun _ => some (1920, 1080), true, true⟩

/-- Seven sampled frames, for the paged-layout example. -/
def f7 : List (String × String) :=
  [("frames/frame_00000.jpg", "00:00:00"), ("frames/frame_00030.jpg", "00:00:01"),
   ("frames/frame_00060.jpg", "00:00:02"), ("frames/frame_00090.jpg", "00:00:03"),
   ("frames/frame_00120.jpg", "00:00:04"), ("frames/frame_00150.jpg", "00:00:05"),
   ("frames/frame_00180.jpg", "00:00:06")]

/-- A decoder that reads every frame image as 1920x1080. -/
def decAll : String → Option (ℕ × ℕ) := fun _ => some (1920, 1080)

lemma pyInt_of_nonneg {q : ℚ} (h : 0 ≤ q) : pyInt q = ⌊q⌋ := if_pos h

lemma pyMod_nonneg (a b : ℚ) (hb : 0 < b) : 0 ≤ pyMod a b := by
  have h1 : b * (⌊a / b⌋ : ℚ) ≤ a := by
    calc b * (⌊a / b⌋ : ℚ) ≤ b * (a / b) :=
          mul_le_mul_of_nonneg_left (Int.floor_le (a / b)) hb.le
      _ = a := by field_simp
  unfold pyMod
  linarith

lemma pyMod_lt (a b : ℚ) (hb : 0 < b) : pyMod a b < b := by
  have h1 : a < b * ((⌊a / b⌋ : ℚ) + 1) := by
    calc a = b * (a / b) := by field_simp
      _ < b * ((⌊a / b⌋ : ℚ) + 1) :=
          mul_lt_mul_of_pos_left (Int.lt_floor_add_one (a / b)) hb
  unfold pyMod
  nlinarith

lemma floor_div_natCast (t : ℚ) (b : ℕ) (ht : 0 ≤ t) :
    ⌊t / (b : ℚ)⌋ = ((⌊t⌋₊ / b : ℕ) : ℤ) := by
  have h1 : (0 : ℚ) ≤ t / (b : ℚ) := div_nonneg ht (by positivity)
  rw [← Int.natCast_floor_eq_floor h1, Nat.floor_div_nat]

lemma floor_pyMod (t : ℚ) (b : ℕ) (ht : 0 ≤ t) :
    ⌊pyMod t (b : ℚ)⌋ = ((⌊t⌋₊ % b : ℕ) : ℤ) := by
  have h1 : pyMod t (b : ℚ) = t - ((b * (⌊t⌋₊ / b) : ℕ) : ℚ) := by
    unfold pyMod
    rw [floor_div_natCast t b ht]
    norm_cast
  rw [h1, Int.floor_sub_nat, ← Int.natCast_floor_eq_floor ht]
  have h2 := Nat.div_add_mod ⌊t⌋₊ b
  omega

lemma natFloor_pyMod (t : ℚ) (b : ℕ) (ht : 0 ≤ t) : ⌊pyMod t (b : ℚ)⌋₊ = ⌊t⌋₊ % b := by
  rw [← Int.floor_toNat, floor_pyMod t b ht, Int.toNat_natCast]

lemma hmsOf_eq (t : ℚ) (ht : 0 ≤ t) :
    hmsOf t = (((⌊t⌋₊ / 3600 : ℕ) : ℤ), ((⌊t⌋₊ % 3600 / 60 : ℕ) : ℤ), ((⌊t⌋₊ % 60 : ℕ) : ℤ)) := by
  have e36 : (3600 : ℚ) = ((3600 : ℕ) : ℚ) := by norm_num
  have e60 : (60 : ℚ) = ((60 : ℕ) : ℚ) := by norm_num
  have hm : (0 : ℚ) ≤ pyMod t ((3600 : ℕ) : ℚ) := pyMod_nonneg t _ (by norm_num)
  unfold hmsOf
  rw [e36, e60, floor_div_natCast t 3600 ht,
    floor_div_natCast (pyMod t ((3600 : ℕ) : ℚ)) 60 hm, natFloor_pyMod t 3600 ht,
    pyInt_of_nonneg (pyMod_nonneg t _ (by norm_num)), floor_pyMod t 60 ht]

lemma hmsLe_mono {t1 t2 : ℚ} (h0 : 0 ≤ t1) (h12 : t1 ≤ t2) : hmsLe (hmsOf t1) (hmsOf t2) := by
  have h02 : 0 ≤ t2 := le_trans h0 h12
  have hn : ⌊t1⌋₊ ≤ ⌊t2⌋₊ := Nat.floor_mono h12
  rw [hmsOf_eq t1 h0, hmsOf_eq t2 h02]
  unfold hmsLe
  dsimp only
  omega

lemma timestampStr_eq_spec (t : ℚ) : timestampStr t = specTimestampStr t := by
  unfold timestampStr specTimestampStr hmsOf
  rw [pyInt_of_nonneg (pyMod_nonneg t 60 (by norm_num))]

lemma frame_interval_pos (fps : ℚ) (interval : ℕ) : 0 < frame_interval fps interval := by
  unfold frame_interval
  have h : (1 : ℤ) ≤ max 1 (pyInt (fps * interval)) := le_max_left _ _
  omega


lemma range_map_shift {α : Type} (g : ℕ → α) (k stride count : ℕ) :
    (List.range (k + 1)).map (fun i => g (count + i * stride)) =
      g count :: (List.range k).map (fun i => g (count + stride + i * stride)) := by
  rw [List.range_succ_eq_map, List.map_cons, List.map_map]
  congr 1
  · norm_num
  · apply List.map_congr_left
    intro i _
    simp only [Function.comp_apply]
    congr 1
    rw [Nat.succ_mul]
    ring

lemma range_map_shift_frame (od : String) (fps : ℚ) (k stride count : ℕ) :
    (List.range (k + 1)).map (fun i =>
        (frameName od (count + i * stride),
         timestampStr (((count + i * stride : ℕ) : ℚ) / fps))) =
      (frameName od count, timestampStr ((count : ℚ) / fps)) ::
        (List.range k).map (fun i =>
          (frameName od (count + stride + i * stride),
           timestampStr (((count + stride + i * stride : ℕ) : ℚ) / fps))) :=
  range_map_shift (fun n => (frameName od n, timestampStr ((n : ℚ) / fps))) k stride count

lemma extractLoop_spec (src : VideoSource) (od : String) (stride : ℕ)
    (hf : ¬src.fps = 0) (hs : 0 < stride) :
    ∀ fuel count acc, src.totalFrames ≤ count + fuel →
      ∃ k, extractLoop src od stride fuel count acc =
        some (acc ++ (List.range k).map (fun i =>
          (frameName od (count + i * stride),
           timestampStr (((count + i * stride : ℕ) : ℚ) / src.fps)))) := by
  intro fuel
  induction fuel with
  | zero =>
    intro count acc h
    refine ⟨0, ?_⟩
    simp [extractLoop, Nat.not_lt.mpr (by omega : src.totalFrames ≤ count)]
  | succ fuel ih =>
    intro count acc h
    by_cases hc : count < src.totalFrames
    · by_cases hread : src.readOk count = true
      · obtain ⟨k, hk⟩ := ih (count + stride)
          (acc ++ [(frameName od count, timestampStr ((count : ℚ) / src.fps))]) (by omega)
        refine ⟨k + 1, ?_⟩
        simp only [extractLoop, if_pos hc, if_pos hread, if_neg hf]
        rw [hk, range_map_shift_frame od src.fps k stride count]
        simp
      · refine ⟨0, ?_⟩
        simp [extractLoop, if_pos hc, hread]
    · refine ⟨0, ?_⟩
      simp [extractLoop, if_neg hc]

lemma ceilDivNat_succ_step {d s : ℕ} (hd : 1 ≤ d) (hs : 0 < s) :
    ceilDivNat d s = ceilDivNat (d - s) s + 1 := by
  unfold ceilDivNat
  rcases le_or_lt s d with h | h
  · have e1 : d + s - 1 = (d - s + s - 1) + s := by omega
    rw [e1, Nat.add_div_right _ hs]
  · have e1 : d - s = 0 := by omega
    have e2 : d + s - 1 = (d - 1) + s := by omega
    rw [e1, e2, Nat.add_div_right _ hs, Nat.div_eq_of_lt (by omega),
      Nat.div_eq_of_lt (by omega)]

lemma ceilDivNat_of_zero (s : ℕ) (hs : 0 < s) : ceilDivNat 0 s = 0 := by
  unfold ceilDivNat
  exact Nat.div_eq_of_lt (by omega)

lemma extractLoop_count (src : VideoSource) (od : String) (stride : ℕ)
    (hf : ¬src.fps = 0) (hs : 0 < stride) (hread : ∀ n, src.readOk n = true) :
    ∀ fuel count acc, src.totalFrames ≤ count + fuel →
      extractLoop src od stride fuel count acc =
        some (acc ++
          (List.range (ceilDivNat (src.totalFrames - count) stride)).map (fun i =>
            (frameName od (count + i * stride),
             timestampStr (((count + i * stride : ℕ) : ℚ) / src.fps)))) := by
  intro fuel
  induction fuel with
  | zero =>
    intro count acc h
    have e : src.totalFrames - count = 0 := by omega
    rw [e, ceilDivNat_of_zero _ hs]
    simp [extractLoop, Nat.not_lt.mpr (by omega : src.totalFrames ≤ count)]
  | succ fuel ih =>
    intro count acc h
    by_cases hc : count < src.totalFrames
    · have hk := ih (count + stride)
        (acc ++ [(frameName od count, timestampStr ((count : ℚ) / src.fps))]) (by omega)
      simp only [extractLoop, if_pos hc, if_pos (hread count), if_neg hf]
      rw [hk, ceilDivNat_succ_step (show 1 ≤ src.totalFrames - count by omega) hs]
      have e : src.totalFrames - count - stride = src.totalFrames - (count + stride) := by
        omega
      rw [e, range_map_shift_frame od src.fps _ stride count]
      simp
    · have e : src.totalFrames - count = 0 := by omega
      rw [e, ceilDivNat_of_zero _ hs]
      simp [extractLoop, if_neg hc]

lemma extract_frames_char (src : VideoSource) (interval : ℕ) (od : String)
    (ho : src.opened = true) (hf : ¬src.fps = 0) :
    ∃ k, extract_frames src interval od = (List.range k).map (fun i =>
      (frameName od (i * frame_interval src.fps interval),
       timestampStr (((i * frame_interval src.fps interval : ℕ) : ℚ) / src.fps))) := by
  obtain ⟨k, hk⟩ := extractLoop_spec src od (frame_interval src.fps interval) hf
    (frame_interval_pos _ _) src.totalFrames 0 [] (by omega)
  refine ⟨k, ?_⟩
  unfold extract_frames
  rw [ho, hk]
  simp

lemma extract_frames_count (src : VideoSource) (interval : ℕ) (od : String)
    (ho : src.opened = true) (hf : ¬src.fps = 0) (hread : ∀ n, src.readOk n = true) :
    extract_frames src interval od =
      (List.range (ceilDivNat src.totalFrames (frame_interval src.fps interval))).map (fun i =>
        (frameName od (i * frame_interval src.fps interval),
         timestampStr (((i * frame_interval src.fps interval : ℕ) : ℚ) / src.fps))) := by
  have hk := extractLoop_count src od (frame_interval src.fps interval) hf
    (frame_interval_pos _ _) hread src.totalFrames 0 [] (by omega)
  unfold extract_frames
  rw [ho, hk]
  simp

lemma extract_frames_of_not_opened (src : VideoSource) (interval : ℕ) (od : String)
    (h : src.opened = false) : extract_frames src interval od = [] := by
  unfold extract_frames
  rw [h]
  simp

lemma extract_frames_of_total_zero (src : VideoSource) (interval : ℕ) (od : String)
    (h : src.totalFrames = 0) : extract_frames src interval od = [] := by
  unfold extract_frames
  by_cases ho : src.opened = true
  · rw [ho, h]
    simp [extractLoop, h]
  · rw [Bool.not_eq_true] at ho
    rw [ho]
    simp

lemma extract_frames_of_fps_zero (src : VideoSource) (interval : ℕ) (od : String)
    (h : src.fps = 0) : extract_frames src interval od = [] := by
  unfold extract_frames
  by_cases ho : src.opened = true
  · rw [ho]
    rcases Nat.eq_zero_or_pos src.totalFrames with ht | ht
    · rw [ht]
      simp [extractLoop, ht]
    · obtain ⟨m, hm⟩ : ∃ m, src.totalFrames = m + 1 := ⟨src.totalFrames - 1, by omega⟩
      rw [hm]
      rcases Bool.eq_false_or_eq_true (src.readOk 0) with hr | hr
      · simp [extractLoop, hm, hr, h]
      · simp [extractLoop, hm, hr, h]
  · rw [Bool.not_eq_true] at ho
    rw [ho]
    simp

lemma ceilDivNat_cast (a b : ℕ) (hb : 0 < b) :
    ⌈(a : ℚ) / (b : ℚ)⌉ = ((ceilDivNat a b : ℕ) : ℤ) := by
  have hdm := Nat.div_add_mod (a + b - 1) b
  have hmod := Nat.mod_lt (a + b - 1) hb
  set q : ℕ := (a + b - 1) / b with hq
  have F1 : b * q < a + b := by omega
  have F2 : a ≤ b * q := by omega
  have hbq : (0 : ℚ) < (b : ℚ) := by exact_mod_cast hb
  have Q1 : (b : ℚ) * (q : ℚ) < (a : ℚ) + (b : ℚ) := by exact_mod_cast F1
  have Q2 : (a : ℚ) ≤ (b : ℚ) * (q : ℚ) := by exact_mod_cast F2
  have e : (((ceilDivNat a b : ℕ) : ℤ) : ℚ) = (q : ℚ) := by
    unfold ceilDivNat
    rw [← hq]
    norm_cast
  rw [Int.ceil_eq_iff]
  constructor
  · rw [e, lt_div_iff₀ hbq]
    nlinarith [Q1]
  · rw [e, div_le_iff₀ hbq]
    nlinarith [Q2]

lemma frame_interval_natCast (n interval : ℕ) :
    frame_interval (n : ℚ) interval = max 1 (n * interval) := by
  unfold frame_interval
  have e : (n : ℚ) * (interval : ℚ) = ((n * interval : ℕ) : ℚ) := by push_cast; ring
  rw [e, pyInt_of_nonneg (by positivity), Int.floor_natCast]
  omega

/-- C1, counterexample: the code computes the stride with `int(...)`
(truncation), not `round(...)`. At `fps = 29.7`, `interval = 1` the code's
stride is 29 while the claimed formula gives 30, and on a 59-frame source
with all reads succeeding the code extracts 3 frames while the claimed
stride would predict `ceil(59/30) = 2`. -/
theorem C1_counterexample :
    frame_interval (297 / 10) 1 = 29 ∧
    (max 1 (round ((297 / 10 : ℚ) * (1 : ℕ))) : ℤ) = 30 ∧
    (extract_frames src297 1 "frames").length = 3 ∧
    ⌈(59 : ℚ) / ((30 : ℤ) : ℚ)⌉ = 2 := by
  refine ⟨?_, ?_, ?_, by rw [Int.ceil_eq_iff]; norm_num⟩
  · unfold frame_interval
    rw [pyInt_of_nonneg (by norm_num)]
    norm_num
    decide
  · rw [round_eq]
    norm_num
  · rw [extract_frames_count src297 1 "frames" rfl (by norm_num [src297]) (fun n => rfl)]
    have e : ceilDivNat src297.totalFrames (frame_interval src297.fps 1) = 3 := by
      show ceilDivNat 59 (frame_interval (297 / 10) 1) = 3
      have e2 : frame_interval (297 / 10) 1 = 29 := by
        unfold frame_interval
        rw [pyInt_of_nonneg (by norm_num)]
        norm_num
        decide
      rw [e2]
      norm_num [ceilDivNat]
    rw [e]
    simp

/-- C1, amended: for every opened source with positive fps, every
`interval ≥ 1` and all reads succeeding, the run length is
`ceil(totalFrames / stride)` for the code's stride
`max(1, int(fps * interval))` (truncation, not rounding); in particular at
`fps = 30`, `totalFrames = 300` the length equals
`ceil(300 / round(30 * interval))`, as the claim states, because
`30 * interval` is an integer there. -/
theorem C1_stride_and_count (src : VideoSource) (interval : ℕ) (od : String)
    (ho : src.opened = true) (hf : 0 < src.fps) (hi : 1 ≤ interval)
    (hread : ∀ n, src.readOk n = true) :
    (extract_frames src interval od).length =
      ceilDivNat src.totalFrames (frame_interval src.fps interval) ∧
    (src.fps = 30 → src.totalFrames = 300 →
      ((extract_frames src interval od).length : ℤ) =
        ⌈(300 : ℚ) / ((round ((30 : ℚ) * (interval : ℚ)) : ℤ) : ℚ)⌉) := by
  have hlen : (extract_frames src interval od).length =
      ceilDivNat src.totalFrames (frame_interval src.fps interval) := by
    rw [extract_frames_count src interval od ho hf.ne' hread]
    simp
  refine ⟨hlen, fun h30 h300 => ?_⟩
  have ec : (30 : ℚ) * (interval : ℚ) = ((30 * interval : ℕ) : ℚ) := by push_cast; ring
  have hr : (round ((30 : ℚ) * (interval : ℚ)) : ℤ) = ((30 * interval : ℕ) : ℤ) := by
    rw [ec, round_natCast]
  have hfi : frame_interval src.fps interval = 30 * interval := by
    rw [h30, show (30 : ℚ) = ((30 : ℕ) : ℚ) by norm_num, frame_interval_natCast]
    omega
  rw [hlen, hfi, h300, hr]
  rw [show ((30 * interval : ℕ) : ℤ) = ((30 * interval : ℕ) : ℤ) from rfl]
  rw [show (((30 * interval : ℕ) : ℤ) : ℚ) = ((30 * interval : ℕ) : ℚ) by push_cast; ring,
    show (300 : ℚ) = ((300 : ℕ) : ℚ) by norm_num]
  exact (ceilDivNat_cast 300 (30 * interval) (by omega)).symm

/-- Witness for C1_stride_and_count at `src30`, `interval = 30`. -/
theorem C1_stride_and_count_witness :
    src30.opened = true ∧ (0 : ℚ) < src30.fps ∧ (1 : ℕ) ≤ 30 ∧
    ((extract_frames src30 30 "frames").length =
        ceilDivNat src30.totalFrames (frame_interval src30.fps 30) ∧
      (src30.fps = 30 → src30.totalFrames = 300 →
        ((extract_frames src30 30 "frames").length : ℤ) =
          ⌈(300 : ℚ) / ((round ((30 : ℚ) * ((30 : ℕ) : ℚ)) : ℤ) : ℚ)⌉)) :=
  ⟨rfl, by norm_num [src30], by norm_num,
    C1_stride_and_count src30 30 "frames" rfl (by norm_num [src30]) (by norm_num)
      (fun n => rfl)⟩

/-- C2: every frame emitted on a source with `fps > 0` carries the timestamp
string obtained by zero-padded `HH:MM:SS` floor formatting of
`t = frameIndex / fps` (the code's format agrees with the spec's floor
semantics for every `t`); `frameIndex = 125` at `fps = 25` formats to
`"00:00:05"`, and along the run the hour/minute/second triples are
monotonically non-decreasing in lexicographic (time) order. -/
theorem C2_timestamps (src : VideoSource) (interval : ℕ) (od : String)
    (hf : 0 < src.fps) :
    (∃ k, extract_frames src interval od = (List.range k).map (fun i =>
        (frameName od (i * frame_interval src.fps interval),
         timestampStr (((i * frame_interval src.fps interval : ℕ) : ℚ) / src.fps)))) ∧
    (∀ t : ℚ, timestampStr t = specTimestampStr t) ∧
    (∀ i j : ℕ, i ≤ j →
      hmsLe (hmsOf (((i * frame_interval src.fps interval : ℕ) : ℚ) / src.fps))
        (hmsOf (((j * frame_interval src.fps interval : ℕ) : ℚ) / src.fps))) ∧
    timestampStr ((125 : ℚ) / (25 : ℚ)) = "00:00:05" := by
  refine ⟨?_, timestampStr_eq_spec, ?_, ?_⟩
  · by_cases ho : src.opened = true
    · exact extract_frames_char src interval od ho hf.ne'
    · rw [Bool.not_eq_true] at ho
      exact ⟨0, by rw [extract_frames_of_not_opened src interval od ho]; simp⟩
  · intro i j hij
    apply hmsLe_mono
    · positivity
    · gcongr
  · have e5 : (125 : ℚ) / (25 : ℚ) = ((5 : ℕ) : ℚ) := by norm_num
    unfold timestampStr
    rw [e5, hmsOf_eq ((5 : ℕ) : ℚ) (by positivity), Nat.floor_natCast]
    norm_num
    decide

/-- Witness for C2_timestamps at `src30`, `interval = 1`. -/
theorem C2_timestamps_witness :
    (0 : ℚ) < src30.fps ∧
    ((∃ k, extract_frames src30 1 "frames" = (List.range k).map (fun i =>
        (frameName "frames" (i * frame_interval src30.fps 1),
         timestampStr (((i * frame_interval src30.fps 1 : ℕ) : ℚ) / src30.fps)))) ∧
     (∀ t : ℚ, timestampStr t = specTimestampStr t) ∧
     (∀ i j : ℕ, i ≤ j →
       hmsLe (hmsOf (((i * frame_interval src30.fps 1 : ℕ) : ℚ) / src30.fps))
         (hmsOf (((j * frame_interval src30.fps 1 : ℕ) : ℚ) / src30.fps))) ∧
     timestampStr ((125 : ℚ) / (25 : ℚ)) = "00:00:05") :=
  ⟨by norm_num [src30], C2_timestamps src30 1 "frames" (by norm_num [src30])⟩

/-- C5, counterexample: the claim asserts `fps ≤ 0` yields an empty run, but
for a source with negative fps the code's stride clamps to 1 and the run is
non-empty (the `ZeroDivisionError` guard only fires at `fps = 0`). -/
theorem C5_counterexample :
    srcNegFps.fps ≤ 0 ∧ srcNegFps.opened = true ∧
    extract_frames srcNegFps 1 "frames" ≠ [] := by
  refine ⟨by norm_num [srcNegFps], rfl, ?_⟩
  rw [extract_frames_count srcNegFps 1 "frames" rfl (by norm_num [srcNegFps]) (fun n => rfl)]
  have e : ceilDivNat srcNegFps.totalFrames (frame_interval srcNegFps.fps 1) = 1 := by
    show ceilDivNat 1 (frame_interval (-1 : ℚ) 1) = 1
    have e2 : frame_interval (-1 : ℚ) 1 = 1 := by
      unfold frame_interval pyInt
      norm_num
      rw [show ⌈(-1 : ℚ)⌉ = -1 from by rw [Int.ceil_eq_iff]; norm_num]
      decide
    rw [e2]
    norm_num [ceilDivNat]
  rw [e]
  simp

/-- C5, amended: a source that cannot be opened, or has `totalFrames = 0`,
or reports `fps = 0`, always yields an empty run (and the embedding is a
total function, so no exception reaches the caller); for negative fps the
code does NOT return an empty run. -/
theorem C5_empty_cases (src : VideoSource) (interval : ℕ) (od : String)
    (h : src.opened = false ∨ src.totalFrames = 0 ∨ src.fps = 0) :
    extract_frames src interval od = [] := by
  rcases h with h | h | h
  · exact extract_frames_of_not_opened src interval od h
  · exact extract_frames_of_total_zero src interval od h
  · exact extract_frames_of_fps_zero src interval od h

/-- Witness for C5_empty_cases at the unopenable source. -/
theorem C5_empty_cases_witness :
    (srcClosed.opened = false ∨ srcClosed.totalFrames = 0 ∨ srcClosed.fps = 0) ∧
    extract_frames srcClosed 1 "frames" = [] :=
  ⟨Or.inl rfl, C5_empty_cases srcClosed 1 "frames" (Or.inl rfl)⟩

lemma placeImage_left_def (fw fh sw sh : ℕ) :
    (placeImage fw fh sw sh).left = (sw - (placeImage fw fh sw sh).width) / 2 := rfl

lemma placeImage_top_def (fw fh sw sh : ℕ) :
    (placeImage fw fh sw sh).top = (sh - (placeImage fw fh sw sh).height) / 2 := rfl

lemma placeImage_of_ge (fw fh sw sh : ℕ) (hfw : 0 < fw) (hfh : 0 < fh)
    (hsw : 0 < sw) (hsh : 0 < sh) (h : (fh : ℚ) / (sh : ℚ) ≤ (fw : ℚ) / (sw : ℚ)) :
    (placeImage fw fh sw sh).width = sw ∧
    ((placeImage fw fh sw sh).height : ℤ) = ⌊(fh : ℚ) * (sw : ℚ) / (fw : ℚ)⌋ := by
  have qfw : (0 : ℚ) < (fw : ℚ) := by exact_mod_cast hfw
  have qfh : (0 : ℚ) < (fh : ℚ) := by exact_mod_cast hfh
  have qsw : (0 : ℚ) < (sw : ℚ) := by exact_mod_cast hsw
  have qsh : (0 : ℚ) < (sh : ℚ) := by exact_mod_cast hsh
  rcases lt_or_eq_of_le h with hgt | heq
  · have hnn : (0 : ℚ) ≤ (fh : ℚ) * ((sw : ℚ) / (fw : ℚ)) := by positivity
    simp only [placeImage, if_pos hgt]
    refine ⟨trivial, ?_⟩
    rw [pyInt_of_nonneg hnn, Int.toNat_of_nonneg (Int.floor_nonneg.mpr hnn), mul_div_assoc]
  · have hcross : (fw : ℚ) * sh = (fh : ℚ) * sw := by
      rw [div_eq_div_iff qsh.ne' qsw.ne'] at heq
      linarith
    have hnotgt : ¬((fw : ℚ) / (sw : ℚ) > (fh : ℚ) / (sh : ℚ)) := by
      rw [heq]
      exact lt_irrefl _
    simp only [placeImage, if_neg hnotgt]
    constructor
    · have e1 : (fw : ℚ) * ((sh : ℚ) / (fh : ℚ)) = sw := by
        field_simp
        linarith
      rw [e1, pyInt_of_nonneg (by positivity), Int.floor_natCast, Int.toNat_natCast]
    · have e2 : (fh : ℚ) * (sw : ℚ) / (fw : ℚ) = sh := by
        field_simp
        linarith
      rw [e2, Int.floor_natCast]

lemma placeImage_of_lt (fw fh sw sh : ℕ) (hfw : 0 < fw) (hfh : 0 < fh)
    (hsw : 0 < sw) (hsh : 0 < sh) (h : (fw : ℚ) / (sw : ℚ) < (fh : ℚ) / (sh : ℚ)) :
    (placeImage fw fh sw sh).height = sh ∧
    ((placeImage fw fh sw sh).width : ℤ) = ⌊(fw : ℚ) * (sh : ℚ) / (fh : ℚ)⌋ ∧
    (placeImage fw fh sw sh).width < sw := by
  have qfw : (0 : ℚ) < (fw : ℚ) := by exact_mod_cast hfw
  have qfh : (0 : ℚ) < (fh : ℚ) := by exact_mod_cast hfh
  have qsw : (0 : ℚ) < (sw : ℚ) := by exact_mod_cast hsw
  have qsh : (0 : ℚ) < (sh : ℚ) := by exact_mod_cast hsh
  have hnotgt : ¬((fw : ℚ) / (sw : ℚ) > (fh : ℚ) / (sh : ℚ)) := not_lt.mpr h.le
  have hnn : (0 : ℚ) ≤ (fw : ℚ) * ((sh : ℚ) / (fh : ℚ)) := by positivity
  simp only [placeImage, if_neg hnotgt]
  refine ⟨trivial, ?_, ?_⟩
  · rw [pyInt_of_nonneg hnn, Int.toNat_of_nonneg (Int.floor_nonneg.mpr hnn), mul_div_assoc]
  · have hlt : (fw : ℚ) * ((sh : ℚ) / (fh : ℚ)) < sw := by
      rw [div_lt_div_iff₀ qsw qsh] at h
      rw [← mul_div_assoc, div_lt_iff₀ qfh]
      linarith
    have hfl : ⌊(fw : ℚ) * ((sh : ℚ) / (fh : ℚ))⌋ < (sw : ℤ) :=
      Int.floor_lt.mpr (by exact_mod_cast hlt)
    have hnn2 : 0 ≤ ⌊(fw : ℚ) * ((sh : ℚ) / (fh : ℚ))⌋ := Int.floor_nonneg.mpr hnn
    rw [pyInt_of_nonneg hnn]
    omega

/-- C3: on decoding to pixel size `(fw, fh)` against canvas `(sw, sh)`, the
slide renderer yields `scaledW = sw` exactly when `fw/sw ≥ fh/sh` (with
`scaledH = floor(fh*sw/fw)` derived proportionally), and otherwise fits to
height with `scaledW = floor(fw*sh/fh)`; it centers at
`left = (sw - scaledW)/2`, `top = (sh - scaledH)/2` with floor division. A
1920x1080 image on a 960x540 canvas exactly fills it, and a 1000x2000 image
on that canvas is height-bound and horizontally centered with positive
left. -/
theorem C3_slide_scaling (fw fh sw sh : ℕ) (hfw : 0 < fw) (hfh : 0 < fh)
    (hsw : 0 < sw) (hsh : 0 < sh) :
    ((placeImage fw fh sw sh).width = sw ↔ (fh : ℚ) / (sh : ℚ) ≤ (fw : ℚ) / (sw : ℚ)) ∧
    ((fh : ℚ) / (sh : ℚ) ≤ (fw : ℚ) / (sw : ℚ) →
      (placeImage fw fh sw sh).width = sw ∧
      ((placeImage fw fh sw sh).height : ℤ) = ⌊(fh : ℚ) * (sw : ℚ) / (fw : ℚ)⌋) ∧
    ((fw : ℚ) / (sw : ℚ) < (fh : ℚ) / (sh : ℚ) →
      (placeImage fw fh sw sh).height = sh ∧
      ((placeImage fw fh sw sh).width : ℤ) = ⌊(fw : ℚ) * (sh : ℚ) / (fh : ℚ)⌋) ∧
    (placeImage fw fh sw sh).left = (sw - (placeImage fw fh sw sh).width) / 2 ∧
    (placeImage fw fh sw sh).top = (sh - (placeImage fw fh sw sh).height) / 2 ∧
    placeImage 1920 1080 960 540 = ⟨960, 540, 0, 0⟩ ∧
    (placeImage 1000 2000 960 540 = ⟨270, 540, 345, 0⟩ ∧
      0 < (placeImage 1000 2000 960 540).left) := by
  refine ⟨?_, fun h => placeImage_of_ge fw fh sw sh hfw hfh hsw hsh h,
    fun h => ⟨(placeImage_of_lt fw fh sw sh hfw hfh hsw hsh h).1,
      (placeImage_of_lt fw fh sw sh hfw hfh hsw hsh h).2.1⟩,
    placeImage_left_def fw fh sw sh, placeImage_top_def fw fh sw sh,
    by (norm_num [placeImage, pyInt]; decide), ?_⟩
  · constructor
    · intro hw
      by_contra hnot
      rw [not_le] at hnot
      have := (placeImage_of_lt fw fh sw sh hfw hfh hsw hsh hnot).2.2
      omega
    · intro h
      exact (placeImage_of_ge fw fh sw sh hfw hfh hsw hsh h).1
  · constructor
    · (norm_num [placeImage, pyInt]; decide)
    · have : placeImage 1000 2000 960 540 = ⟨270, 540, 345, 0⟩ := by
        (norm_num [placeImage, pyInt]; decide)
      rw [this]
      norm_num

/-- Witness for C3_slide_scaling at the 1920x1080 image on the 960x540
canvas. -/
theorem C3_slide_scaling_witness :
    (0 : ℕ) < 1920 ∧
    (((placeImage 1920 1080 960 540).width = 960 ↔
        (1080 : ℚ) / (540 : ℚ) ≤ (1920 : ℚ) / (960 : ℚ)) ∧
      ((1080 : ℚ) / (540 : ℚ) ≤ (1920 : ℚ) / (960 : ℚ) →
        (placeImage 1920 1080 960 540).width = 960 ∧
        ((placeImage 1920 1080 960 540).height : ℤ) =
          ⌊(1080 : ℚ) * (960 : ℚ) / (1920 : ℚ)⌋) ∧
      ((1920 : ℚ) / (960 : ℚ) < (1080 : ℚ) / (540 : ℚ) →
        (placeImage 1920 1080 960 540).height = 540 ∧
        ((placeImage 1920 1080 960 540).width : ℤ) =
          ⌊(1920 : ℚ) * (540 : ℚ) / (1080 : ℚ)⌋) ∧
      (placeImage 1920 1080 960 540).left =
        (960 - (placeImage 1920 1080 960 540).width) / 2 ∧
      (placeImage 1920 1080 960 540).top =
        (540 - (placeImage 1920 1080 960 540).height) / 2 ∧
      placeImage 1920 1080 960 540 = ⟨960, 540, 0, 0⟩ ∧
      (placeImage 1000 2000 960 540 = ⟨270, 540, 345, 0⟩ ∧
        0 < (placeImage 1000 2000 960 540).left)) := by
  have h := C3_slide_scaling 1920 1080 960 540 (by norm_num) (by norm_num) (by norm_num)
    (by norm_num)
  refine ⟨by norm_num, ?_⟩
  convert h using 4

lemma paginate_flatten (l : List (String × String)) : (paginate l).flatten = l := by
  induction l using paginate.induct with
  | case1 => simp [paginate]
  | case2 a => simp [paginate]
  | case3 a b => simp [paginate]
  | case4 a b c rest ih => simp [paginate, ih]

lemma paginate_length (l : List (String × String)) :
    (paginate l).length = ceilDivNat l.length 3 := by
  induction l using paginate.induct with
  | case1 => simp [paginate, ceilDivNat]
  | case2 a => simp [paginate, ceilDivNat]
  | case3 a b => simp [paginate, ceilDivNat]
  | case4 a b c rest ih =>
    simp only [paginate, List.length_cons, ih, ceilDivNat]
    omega

lemma paginate_chunk_bounds (l : List (String × String)) :
    ∀ c ∈ paginate l, 1 ≤ c.length ∧ c.length ≤ 3 := by
  induction l using paginate.induct with
  | case1 => simp [paginate]
  | case2 a => simp [paginate]
  | case3 a b => simp [paginate]
  | case4 a b c rest ih =>
    intro ch hch
    simp only [paginate, List.mem_cons] at hch
    rcases hch with h | h
    · simp [h]
    · exact ih ch h

lemma paginate_full_chunks (l : List (String × String)) :
    ∀ i c, (paginate l)[i]? = some c → i + 1 < (paginate l).length → c.length = 3 := by
  induction l using paginate.induct with
  | case1 => simp [paginate]
  | case2 a => simp [paginate]
  | case3 a b => simp [paginate]
  | case4 a b c rest ih =>
    intro i ch hc hlt
    match i with
    | 0 =>
      simp only [paginate, List.getElem?_cons_zero] at hc
      cases hc
      rfl
    | i + 1 =>
      simp only [paginate, List.getElem?_cons_succ] at hc
      simp only [paginate, List.length_cons] at hlt
      exact ih i ch hc (by omega)

lemma renderPdfSlots_length (imgOk : String → Bool) :
    ∀ (chunk : List (String × String)) (j0 : ℕ),
      (renderPdfSlots imgOk j0 chunk).length = chunk.length := by
  intro chunk
  induction chunk with
  | nil => intro j0; rfl
  | cons pt rest ih =>
    intro j0
    obtain ⟨p, ts⟩ := pt
    simp [renderPdfSlots, ih]

lemma renderPdfSlots_get (imgOk : String → Bool) :
    ∀ (chunk : List (String × String)) (j0 j : ℕ) (pt : String × String),
      chunk[j]? = some pt →
      (renderPdfSlots imgOk j0 chunk)[j]? =
        some (if imgOk pt.1 then
          some ⟨y_positions.getD (j0 + j) 0, 190, 80,
            "Frame: " ++ osBasename pt.1 ++ " : " ++ pt.2⟩
        else none) := by
  intro chunk
  induction chunk with
  | nil => intro j0 j pt h; simp at h
  | cons hd rest ih =>
    intro j0 j pt h
    obtain ⟨p, ts⟩ := hd
    match j with
    | 0 =>
      simp only [List.getElem?_cons_zero] at h
      cases h
      simp [renderPdfSlots]
    | j + 1 =>
      simp only [List.getElem?_cons_succ] at h
      have := ih (j0 + 1) j pt h
      simp only [renderPdfSlots, List.getElem?_cons_succ, this]
      have e : j0 + 1 + j = j0 + (j + 1) := by omega
      rw [e]

/-- C4: the paged renderer chunks the frames into consecutive groups of 3 in
sampled order (concatenating the chunks restores the input), one page per
group, all pages full except possibly the last (which holds the 1 or 2
remaining frames), slot `j` of a page placed at y-offset `{10,90,170}[j]`
with width 190 and height 80; 7 frames give pages of sizes `[3,3,1]`. -/
theorem C4_paged_layout (frames : List (String × String)) (imgOk : String → Bool) :
    (paginate frames).flatten = frames ∧
    (paginate frames).length = ceilDivNat frames.length 3 ∧
    (∀ fname folder,
      (create_pdf_from_frames imgOk true frames fname folder).map Prod.snd =
        some ((paginate frames).map (renderPdfSlots imgOk 0))) ∧
    (∀ c ∈ paginate frames, 1 ≤ c.length ∧ c.length ≤ 3) ∧
    (∀ (i : ℕ) (pg : List (String × String)), (paginate frames)[i]? = some pg →
      i + 1 < (paginate frames).length → pg.length = 3) ∧
    (∀ pg ∈ paginate frames, ∀ (j : ℕ) (pt : String × String),
      pg[j]? = some pt → imgOk pt.1 = true →
      (renderPdfSlots imgOk 0 pg)[j]? =
        some (some ⟨y_positions.getD j 0, 190, 80,
          "Frame: " ++ osBasename pt.1 ++ " : " ++ pt.2⟩)) ∧
    (frames.length = 7 → (paginate frames).map List.length = [3, 3, 1]) := by
  refine ⟨paginate_flatten frames, paginate_length frames, fun fname folder => rfl,
    paginate_chunk_bounds frames, paginate_full_chunks frames, ?_, ?_⟩
  · intro pg hpg j pt hpt himg
    rw [renderPdfSlots_get imgOk pg 0 j pt hpt, himg]
    simp
  · intro h7
    rcases frames with _ | ⟨a, _ | ⟨b, _ | ⟨c, _ | ⟨d, _ | ⟨e, _ | ⟨f, _ | ⟨g, _ | ⟨x, rest⟩⟩⟩⟩⟩⟩⟩⟩ <;>
      simp_all [paginate]

/-- Witness for C4_paged_layout: the seven-frame list paginates to page
sizes `[3,3,1]` and flattens back to itself. -/
theorem C4_paged_layout_witness :
    (paginate f7).map List.length = [3, 3, 1] ∧ (paginate f7).flatten = f7 ∧
    f7.length = 7 :=
  ⟨(C4_paged_layout f7 (fun _ => true)).2.2.2.2.2.2 rfl,
   (C4_paged_layout f7 (fun _ => true)).1, rfl⟩

lemma pptxLoop_spec (decodeDim : String → Option (ℕ × ℕ))
    (hd : ∀ p w h, decodeDim p = some (w, h) → ¬(w = 0 ∧ h = 0)) :
    ∀ (frames : List (String × String)) (idx : ℕ) (acc : List SlideContent),
      ∃ slides, pptxLoop decodeDim idx frames acc = some (acc ++ slides) ∧
        slides.length = frames.length ∧
        (∀ (i : ℕ) (pt : String × String), frames[i]? = some pt →
          slides[i]? = some (match decodeDim pt.1 with
            | none => none
            | some (fw, fh) => some (placeImage fw fh pptxSlideW pptxSlideH,
                "Frame " ++ toString (idx + i + 1) ++ " : " ++ pt.2))) := by
  intro frames
  induction frames with
  | nil =>
    intro idx acc
    exact ⟨[], by simp [pptxLoop], rfl, by intro i pt h; simp at h⟩
  | cons hd2 rest ih =>
    intro idx acc
    obtain ⟨p, ts⟩ := hd2
    cases hdec : decodeDim p with
    | none =>
      obtain ⟨slides, heq, hlen, hget⟩ := ih (idx + 1) (acc ++ [none])
      refine ⟨none :: slides, ?_, by simp [hlen], ?_⟩
      · simp only [pptxLoop, hdec]
        rw [heq]
        simp
      · intro i pt h
        match i with
        | 0 =>
          simp only [List.getElem?_cons_zero] at h
          cases h
          simp [hdec]
        | i + 1 =>
          simp only [List.getElem?_cons_succ] at h
          rw [List.getElem?_cons_succ, hget i pt h]
          have e : idx + 1 + i + 1 = idx + (i + 1) + 1 := by omega
          rw [e]
    | some wh =>
      obtain ⟨fw, fh⟩ := wh
      have hnz : ¬(fw = 0 ∧ fh = 0) := hd p fw fh hdec
      obtain ⟨slides, heq, hlen, hget⟩ := ih (idx + 1)
        (acc ++ [some (placeImage fw fh pptxSlideW pptxSlideH,
          "Frame " ++ toString (idx + 1) ++ " : " ++ ts)])
      refine ⟨some (placeImage fw fh pptxSlideW pptxSlideH,
          "Frame " ++ toString (idx + 1) ++ " : " ++ ts) :: slides, ?_, by simp [hlen], ?_⟩
      · simp only [pptxLoop, hdec, if_neg hnz]
        rw [heq]
        simp
      · intro i pt h
        match i with
        | 0 =>
          simp only [List.getElem?_cons_zero] at h
          cases h
          simp [hdec]
        | i + 1 =>
          simp only [List.getElem?_cons_succ] at h
          rw [List.getElem?_cons_succ, hget i pt h]
          have e : idx + 1 + i + 1 = idx + (i + 1) + 1 := by omega
          rw [e]

lemma create_pptx_spec (decodeDim : String → Option (ℕ × ℕ))
    (hd : ∀ p w h, decodeDim p = some (w, h) → ¬(w = 0 ∧ h = 0))
    (frames : List (String × String)) (fname folder : String) :
    ∃ slides, create_pptx_from_frames decodeDim true frames fname folder =
        some (ospJoin folder (splitextStem fname ++ ".pptx"), slides) ∧
      slides.length = frames.length ∧
      (∀ (i : ℕ) (pt : String × String), frames[i]? = some pt →
        slides[i]? = some (match decodeDim pt.1 with
          | none => none
          | some (fw, fh) => some (placeImage fw fh pptxSlideW pptxSlideH,
              "Frame " ++ toString (i + 1) ++ " : " ++ pt.2))) := by
  obtain ⟨slides, heq, hlen, hget⟩ := pptxLoop_spec decodeDim hd frames 0 []
  refine ⟨slides, ?_, hlen, ?_⟩
  · unfold create_pptx_from_frames
    rw [heq]
    simp
  · intro i pt h
    have := hget i pt h
    rw [this]
    have e : 0 + i + 1 = i + 1 := by omega
    rw [e]

lemma pdf_pages_flatten_length (imgOk : String → Bool) (frames : List (String × String)) :
    (((paginate frames).map (renderPdfSlots imgOk 0)).flatten).length = frames.length := by
  rw [List.length_flatten, List.map_map]
  have e : ((paginate frames).map (List.length ∘ renderPdfSlots imgOk 0)) =
      (paginate frames).map List.length := by
    apply List.map_congr_left
    intro pg _
    exact renderPdfSlots_length imgOk pg 0
  rw [e, ← List.length_flatten, paginate_flatten]

/-- C7: with every document save succeeding, a frame whose image cannot be
decoded during layout never aborts a renderer: the PDF renderer still
returns a document whose pages carry one slot per frame, the failed frame's
slot left empty; the PPTX renderer still returns a deck with one slide per
frame, the failed frame's slide blank and every decodable frame rendered.
Neither renderer returns `None` because of an undecodable frame. -/
theorem C7_render_skip (frames : List (String × String)) (fname folder : String)
    (imgOk : String → Bool) (decodeDim : String → Option (ℕ × ℕ))
    (hd : ∀ p w h, decodeDim p = some (w, h) → ¬(w = 0 ∧ h = 0)) :
    (∃ pages, create_pdf_from_frames imgOk true frames fname folder =
        some (ospJoin folder (splitextStem fname ++ ".pdf"), pages) ∧
      pages.flatten.length = frames.length ∧
      (∀ pg ∈ paginate frames, ∀ (j : ℕ) (pt : String × String), pg[j]? = some pt →
        imgOk pt.1 = false → (renderPdfSlots imgOk 0 pg)[j]? = some none)) ∧
    (∃ slides, create_pptx_from_frames decodeDim true frames fname folder =
        some (ospJoin folder (splitextStem fname ++ ".pptx"), slides) ∧
      slides.length = frames.length ∧
      (∀ (i : ℕ) (pt : String × String), frames[i]? = some pt →
        decodeDim pt.1 = none → slides[i]? = some none) ∧
      (∀ (i : ℕ) (pt : String × String), frames[i]? = some pt →
        (decodeDim pt.1).isSome = true → ∃ s, slides[i]? = some (some s))) := by
  constructor
  · refine ⟨(paginate frames).map (renderPdfSlots imgOk 0), rfl,
      pdf_pages_flatten_length imgOk frames, ?_⟩
    intro pg _ j pt hpt himg
    rw [renderPdfSlots_get imgOk pg 0 j pt hpt, himg]
    simp
  · obtain ⟨slides, heq, hlen, hget⟩ := create_pptx_spec decodeDim hd frames fname folder
    refine ⟨slides, heq, hlen, ?_, ?_⟩
    · intro i pt h hdec
      have := hget i pt h
      rw [hdec] at this
      exact this
    · intro i pt h hdec
      cases hdec2 : decodeDim pt.1 with
      | none => rw [hdec2] at hdec; simp at hdec
      | some wh =>
        obtain ⟨fw, fh⟩ := wh
        have := hget i pt h
        rw [hdec2] at this
        exact ⟨_, this⟩

/-- Witness for C7_render_skip on the seven-frame list with an all-1920x1080
decoder: both renderers return a document. -/
theorem C7_render_skip_witness :
    (∀ p w h, decAll p = some (w, h) → ¬(w = 0 ∧ h = 0)) ∧
    (create_pdf_from_frames (fun _ => true) true f7 "video" "out").isSome = true ∧
    (create_pptx_from_frames decAll true f7 "video" "out").isSome = true := by
  have hd : ∀ p w h, decAll p = some (w, h) → ¬(w = 0 ∧ h = 0) := by
    intro p w h hp
    simp only [decAll, Option.some.injEq, Prod.mk.injEq] at hp
    omega
  obtain ⟨⟨pages, hpdf, _⟩, ⟨slides, hpptx, _⟩⟩ :=
    C7_render_skip f7 "video" "out" (fun _ => true) decAll hd
  refine ⟨hd, ?_, ?_⟩
  · rw [hpdf]; rfl
  · rw [hpptx]; rfl

/-- C10: the slide renderer appends the slide before decoding, so the deck
has exactly one slide per input frame, and a frame whose image fails to
decode leaves a blank slide (no picture, no title) rather than omitting the
slide. -/
theorem C10_slide_per_frame (frames : List (String × String)) (fname folder : String)
    (decodeDim : String → Option (ℕ × ℕ))
    (hd : ∀ p w h, decodeDim p = some (w, h) → ¬(w = 0 ∧ h = 0)) :
    ∃ slides, create_pptx_from_frames decodeDim true frames fname folder =
        some (ospJoin folder (splitextStem fname ++ ".pptx"), slides) ∧
      slides.length = frames.length ∧
      (∀ (i : ℕ) (pt : String × String), frames[i]? = some pt →
        decodeDim pt.1 = none → slides[i]? = some none) := by
  obtain ⟨slides, heq, hlen, hget⟩ := create_pptx_spec decodeDim hd frames fname folder
  refine ⟨slides, heq, hlen, ?_⟩
  intro i pt h hdec
  have := hget i pt h
  rw [hdec] at this
  exact this

/-- Witness for C10_slide_per_frame: a two-frame run whose second image does
not decode still yields a two-slide deck with the second slide blank. -/
theorem C10_slide_per_frame_witness :
    (∀ p w h, (fun q => if q = "good.jpg" then some ((1920 : ℕ), (1080 : ℕ)) else none) p =
        some (w, h) → ¬(w = 0 ∧ h = 0)) ∧
    (∃ slides, create_pptx_from_frames
        (fun q => if q = "good.jpg" then some ((1920 : ℕ), (1080 : ℕ)) else none) true
        [("good.jpg", "00:00:00"), ("bad.jpg", "00:00:01")] "video" "out" =
          some (ospJoin "out" (splitextStem "video" ++ ".pptx"), slides) ∧
      slides.length = [("good.jpg", "00:00:00"), ("bad.jpg", "00:00:01")].length ∧
      (∀ (i : ℕ) (pt : String × String),
        ([("good.jpg", "00:00:00"), ("bad.jpg", "00:00:01")] :
          List (String × String))[i]? = some pt →
        (fun q => if q = "good.jpg" then some ((1920 : ℕ), (1080 : ℕ)) else none) pt.1 = none →
        slides[i]? = some none)) := by
  have hd : ∀ p w h,
      (fun q => if q = "good.jpg" then some ((1920 : ℕ), (1080 : ℕ)) else none) p =
        some (w, h) → ¬(w = 0 ∧ h = 0) := by
    intro p w h hp
    by_cases hq : p = "good.jpg"
    · simp only [hq, if_pos] at hp
      simp only [Option.some.injEq, Prod.mk.injEq] at hp
      omega
    · simp [hq] at hp
  exact ⟨hd, C10_slide_per_frame [("good.jpg", "00:00:00"), ("bad.jpg", "00:00:01")]
    "video" "out" (fun q => if q = "good.jpg" then some ((1920 : ℕ), (1080 : ℕ)) else none) hd⟩

lemma splitextStem_of_no_dot (s : String) (h : ('.' : Char) ∉ s.toList) :
    splitextStem s = s := by
  unfold splitextStem
  have e : rfindDot s.toList = none := by
    unfold rfindDot
    have hf : (List.range s.toList.length).filter
        (fun i => s.toList.getD i ' ' = '.') = [] := by
      rw [List.filter_eq_nil_iff]
      intro i hi
      rw [List.mem_range] at hi
      intro hdot
      rw [decide_eq_true_eq] at hdot
      rw [List.getD_eq_getElem s.toList ' ' hi] at hdot
      exact h (hdot ▸ List.getElem_mem hi)
    rw [hf]
    rfl
  simp only [e]

/-- C9, counterexample: the renderers re-apply `os.path.splitext` to the
already-extension-free base name, so a base name containing a dot loses its
last dot-segment: rendering with `baseName = "a.b"` writes `out/a.pdf`, not
`out/a.b.pdf`. -/
theorem C9_counterexample :
    (create_pdf_from_frames (fun _ => true) true [("f.jpg", "00:00:00")] "a.b" "out").map
        Prod.fst = some "out/a.pdf" ∧
    ospJoin "out" ("a.b" ++ ".pdf") = "out/a.b.pdf" ∧
    "out/a.pdf" ≠ "out/a.b.pdf" := by
  exact ⟨by decide, by decide, by decide⟩

/-- C9, amended: on a non-empty run with saves succeeding, the PDF renderer
returns exactly the path `outputFolder/{stem}.pdf` and the PPTX renderer
exactly `outputFolder/{stem}.pptx`, where `stem` is `baseName` with its
final `.ext` segment stripped (equal to `baseName` whenever `baseName`
contains no dot); the claimed `outputFolder/{baseName}.ext` holds only in
that dot-free case. -/
theorem C9_output_paths (frames : List (String × String)) (baseName folder : String)
    (imgOk : String → Bool) (decodeDim : String → Option (ℕ × ℕ))
    (_hne : frames ≠ [])
    (hd : ∀ p w h, decodeDim p = some (w, h) → ¬(w = 0 ∧ h = 0)) :
    (create_pdf_from_frames imgOk true frames baseName folder).map Prod.fst =
      some (ospJoin folder (splitextStem baseName ++ ".pdf")) ∧
    (create_pptx_from_frames decodeDim true frames baseName folder).map Prod.fst =
      some (ospJoin folder (splitextStem baseName ++ ".pptx")) ∧
    (('.' : Char) ∉ baseName.toList → splitextStem baseName = baseName) := by
  refine ⟨rfl, ?_, splitextStem_of_no_dot baseName⟩
  obtain ⟨slides, heq, -, -⟩ := create_pptx_spec decodeDim hd frames baseName folder
  rw [heq]
  rfl

/-- Witness for C9_output_paths on a one-frame run with dot-free base name
`"video"`. -/
theorem C9_output_paths_witness :
    ([(("f.jpg" : String), ("00:00:00" : String))] ≠ []) ∧
    ((create_pdf_from_frames (fun _ => true) true [("f.jpg", "00:00:00")] "video" "out").map
        Prod.fst = some (ospJoin "out" (splitextStem "video" ++ ".pdf")) ∧
      (create_pptx_from_frames decAll true [("f.jpg", "00:00:00")] "video" "out").map
        Prod.fst = some (ospJoin "out" (splitextStem "video" ++ ".pptx")) ∧
      (('.' : Char) ∉ "video".toList → splitextStem "video" = "video")) := by
  have hd : ∀ p w h, decAll p = some (w, h) → ¬(w = 0 ∧ h = 0) := by
    intro p w h hp
    simp only [decAll, Option.some.injEq, Prod.mk.injEq] at hp
    omega
  exact ⟨by decide, C9_output_paths [("f.jpg", "00:00:00")] "video" "out"
    (fun _ => true) decAll (by decide) hd⟩

lemma runLoop_spec (w : World) (fmt : String) (interval : ℕ) (folder : String) (total : ℕ) :
    ∀ (paths : List String) (processed succ fail : ℕ),
      (runLoop w fmt interval folder total paths processed succ fail).1.length =
        paths.length ∧
      (runLoop w fmt interval folder total paths processed succ fail).2.1 =
        paths.map (fun p => ⟨p, process_video w fmt interval folder p⟩) ∧
      (∀ (i : ℕ) (pr : Progress),
        (runLoop w fmt interval folder total paths processed succ fail).1[i]? = some pr →
        pr.total_files = total ∧ pr.processed_files = processed + i + 1 ∧
        pr.successful_conversions + pr.failed_conversions = succ + fail + i + 1) ∧
      (runLoop w fmt interval folder total paths processed succ fail).2.2.1 +
          (runLoop w fmt interval folder total paths processed succ fail).2.2.2 =
        succ + fail + paths.length := by
  intro paths
  induction paths with
  | nil =>
    intro processed succ fail
    refine ⟨rfl, rfl, ?_, rfl⟩
    intro i pr h
    simp [runLoop] at h
  | cons p rest ih =>
    intro processed succ fail
    by_cases hs : (process_video w fmt interval folder p).isSome = true
    · have e : runLoop w fmt interval folder total (p :: rest) processed succ fail =
          (⟨total, processed + 1, succ + 1, fail⟩ ::
              (runLoop w fmt interval folder total rest (processed + 1) (succ + 1) fail).1,
            ⟨p, process_video w fmt interval folder p⟩ ::
              (runLoop w fmt interval folder total rest (processed + 1) (succ + 1) fail).2.1,
            (runLoop w fmt interval folder total rest (processed + 1) (succ + 1) fail).2.2) := by
        simp [runLoop, hs]
      obtain ⟨ih1, ih2, ih3, ih4⟩ := ih (processed + 1) (succ + 1) fail
      rw [e]
      refine ⟨by simp [ih1], by simp [ih2], ?_, by simp only [List.length_cons]; omega⟩
      intro i pr h
      match i with
      | 0 =>
        simp only [List.getElem?_cons_zero] at h
        cases h
        exact ⟨rfl, show processed + 1 = processed + 0 + 1 by omega,
          show succ + 1 + fail = succ + fail + 0 + 1 by omega⟩
      | i + 1 =>
        simp only [List.getElem?_cons_succ] at h
        obtain ⟨h1, h2, h3⟩ := ih3 i pr h
        exact ⟨h1, by omega, by omega⟩
    · have e : runLoop w fmt interval folder total (p :: rest) processed succ fail =
          (⟨total, processed + 1, succ, fail + 1⟩ ::
              (runLoop w fmt interval folder total rest (processed + 1) succ (fail + 1)).1,
            ⟨p, process_video w fmt interval folder p⟩ ::
              (runLoop w fmt interval folder total rest (processed + 1) succ (fail + 1)).2.1,
            (runLoop w fmt interval folder total rest (processed + 1) succ (fail + 1)).2.2) := by
        simp [runLoop, hs]
      obtain ⟨ih1, ih2, ih3, ih4⟩ := ih (processed + 1) succ (fail + 1)
      rw [e]
      refine ⟨by simp [ih1], by simp [ih2], ?_, by simp only [List.length_cons]; omega⟩
      intro i pr h
      match i with
      | 0 =>
        simp only [List.getElem?_cons_zero] at h
        cases h
        exact ⟨rfl, show processed + 1 = processed + 0 + 1 by omega,
          show succ + (fail + 1) = succ + fail + 0 + 1 by omega⟩
      | i + 1 =>
        simp only [List.getElem?_cons_succ] at h
        obtain ⟨h1, h2, h3⟩ := ih3 i pr h
        exact ⟨h1, by omega, by omega⟩

/-- C6: when sampling yields an empty run the orchestrator records a failed
outcome for that task without consulting the layout engine — the failure
holds for every world sharing the same sources, whatever the renderers
would do — and the batch continues: every submitted task still gets an
outcome, in order, and the summary still covers all tasks. -/
theorem C6_empty_run_short_circuit (w : World) (fmt : String) (interval : ℕ)
    (folder : String) (video_path : String)
    (hempty : extract_frames (w.source video_path) interval "frames" = []) :
    process_video w fmt interval folder video_path = none ∧
    (∀ w2 : World, w2.source = w.source →
      process_video w2 fmt interval folder video_path = none) ∧
    (∀ (paths : List String) (i : ℕ), paths[i]? = some video_path →
      ∃ progs outs s, workerRun w fmt interval folder paths = some (progs, outs, s) ∧
        outs.length = paths.length ∧
        outs[i]? = some ⟨video_path, none⟩ ∧
        s.total_files = paths.length) := by
  have hpv : ∀ w2 : World, w2.source = w.source →
      process_video w2 fmt interval folder video_path = none := by
    intro w2 hsrc
    unfold process_video
    rw [hsrc, hempty]
    simp
  refine ⟨hpv w rfl, hpv, ?_⟩
  intro paths i hip
  have hne : ¬paths = [] := by
    intro hnil
    rw [hnil] at hip
    simp at hip
  obtain ⟨-, houts, -, -⟩ := runLoop_spec w fmt interval folder paths.length paths 0 0 0
  refine ⟨(runLoop w fmt interval folder paths.length paths 0 0 0).1,
    (runLoop w fmt interval folder paths.length paths 0 0 0).2.1,
    ⟨paths.length, (runLoop w fmt interval folder paths.length paths 0 0 0).2.2.1,
      (runLoop w fmt interval folder paths.length paths 0 0 0).2.2.2⟩, ?_, ?_, ?_, rfl⟩
  · unfold workerRun
    rw [if_neg hne]
  · rw [houts, List.length_map]
  · rw [houts, List.getElem?_map, hip]
    simp only [Option.map_some']
    rw [hpv w rfl]

/-- Witness for C6_empty_run_short_circuit: in the example world the task
`"b.mp4"` opens no source, its outcome in the three-task batch is a
failure, and the batch still summarises all three tasks. -/
theorem C6_empty_run_short_circuit_witness :
    extract_frames (wEx.source "b.mp4") 30 "frames" = [] ∧
    (process_video wEx "pdf" 30 "out" "b.mp4" = none ∧
      (∀ w2 : World, w2.source = wEx.source →
        process_video w2 "pdf" 30 "out" "b.mp4" = none) ∧
      (∀ (paths : List String) (i : ℕ), paths[i]? = some "b.mp4" →
        ∃ progs outs s, workerRun wEx "pdf" 30 "out" paths = some (progs, outs, s) ∧
          outs.length = paths.length ∧
          outs[i]? = some ⟨"b.mp4", none⟩ ∧
          s.total_files = paths.length)) := by
  have hempty : extract_frames (wEx.source "b.mp4") 30 "frames" = [] := by
    apply extract_frames_of_not_opened
    rfl
  exact ⟨hempty, C6_empty_run_short_circuit wEx "pdf" 30 "out" "b.mp4" hempty⟩

/-- C8: the orchestrator processes a submitted (non-empty) task list
sequentially in input order: outcomes appear in the order of the inputs;
the i-th progress update reports exactly `i+1` processed tasks, equal to
the sum of its success and failure counters; and the final summary
satisfies `total = length = succeeded + failed`. -/
theorem C8_sequential_progress (w : World) (fmt : String) (interval : ℕ)
    (folder : String) (paths : List String) (hne : paths ≠ []) :
    ∃ progs outs s, workerRun w fmt interval folder paths = some (progs, outs, s) ∧
      progs.length = paths.length ∧
      outs.map Outcome.path = paths ∧
      (∀ (i : ℕ) (pr : Progress), progs[i]? = some pr →
        pr.total_files = paths.length ∧
        pr.processed_files = i + 1 ∧
        pr.processed_files = pr.successful_conversions + pr.failed_conversions) ∧
      s.total_files = paths.length ∧
      s.total_files = s.successful + s.failed := by
  obtain ⟨hlen, houts, hprog, hsum⟩ :=
    runLoop_spec w fmt interval folder paths.length paths 0 0 0
  refine ⟨(runLoop w fmt interval folder paths.length paths 0 0 0).1,
    (runLoop w fmt interval folder paths.length paths 0 0 0).2.1,
    ⟨paths.length, (runLoop w fmt interval folder paths.length paths 0 0 0).2.2.1,
      (runLoop w fmt interval folder paths.length paths 0 0 0).2.2.2⟩,
    ?_, hlen, ?_, ?_, rfl, ?_⟩
  · unfold workerRun
    rw [if_neg hne]
  · rw [houts, List.map_map]
    have : (Outcome.path ∘ fun p => (⟨p, process_video w fmt interval folder p⟩ : Outcome)) =
        id := by
      funext p
      rfl
    rw [this, List.map_id]
  · intro i pr h
    obtain ⟨h1, h2, h3⟩ := hprog i pr h
    exact ⟨h1, by omega, by omega⟩
  · show paths.length = (runLoop w fmt interval folder paths.length paths 0 0 0).2.2.1 +
      (runLoop w fmt interval folder paths.length paths 0 0 0).2.2.2
    omega

lemma extract_src30_nonempty : extract_frames src30 30 "frames" ≠ [] := by
  rw [extract_frames_count src30 30 "frames" rfl (by norm_num [src30]) (fun n => rfl)]
  have e : ceilDivNat src30.totalFrames (frame_interval src30.fps 30) = 1 := by
    show ceilDivNat 300 (frame_interval (30 : ℚ) 30) = 1
    rw [show (30 : ℚ) = ((30 : ℕ) : ℚ) by norm_num, frame_interval_natCast]
    norm_num [ceilDivNat]
  rw [e]
  simp

lemma process_video_a : (process_video wEx "pdf" 30 "out" "a.mp4").isSome = true := by
  have hsrc : wEx.source "a.mp4" = src30 := rfl
  simp only [process_video, hsrc]
  rw [if_neg extract_src30_nonempty]
  simp [create_pdf_from_frames, show wEx.pdfSaveOk = true from rfl]

lemma process_video_c : (process_video wEx "pdf" 30 "out" "c.mp4").isSome = true := by
  have hsrc : wEx.source "c.mp4" = src30 := rfl
  simp only [process_video, hsrc]
  rw [if_neg extract_src30_nonempty]
  simp [create_pdf_from_frames, show wEx.pdfSaveOk = true from rfl]

lemma process_video_b : process_video wEx "pdf" 30 "out" "b.mp4" = none := by
  have hsrc : wEx.source "b.mp4" = srcClosed := rfl
  have hempty : extract_frames srcClosed 30 "frames" = [] :=
    extract_frames_of_not_opened srcClosed 30 "frames" rfl
  simp only [process_video, hsrc, hempty]
  rfl

/-- Witness for C8_sequential_progress: the three-task batch in which only
`"b.mp4"` is unreadable reports `total = 3`, `succeeded = 2`, `failed = 1`
and preserves input order. -/
theorem C8_sequential_progress_witness :
    (["a.mp4", "b.mp4", "c.mp4"] : List String) ≠ [] ∧
    (workerRun wEx "pdf" 30 "out" ["a.mp4", "b.mp4", "c.mp4"]).map
        (fun r => r.2.2) = some ⟨3, 2, 1⟩ ∧
    (∃ progs outs s, workerRun wEx "pdf" 30 "out" ["a.mp4", "b.mp4", "c.mp4"] =
        some (progs, outs, s) ∧
      progs.length = (["a.mp4", "b.mp4", "c.mp4"] : List String).length ∧
      outs.map Outcome.path = ["a.mp4", "b.mp4", "c.mp4"] ∧
      (∀ (i : ℕ) (pr : Progress), progs[i]? = some pr →
        pr.total_files = (["a.mp4", "b.mp4", "c.mp4"] : List String).length ∧
        pr.processed_files = i + 1 ∧
        pr.processed_files = pr.successful_conversions + pr.failed_conversions) ∧
      s.total_files = (["a.mp4", "b.mp4", "c.mp4"] : List String).length ∧
      s.total_files = s.successful + s.failed) := by
  refine ⟨by simp, ?_, C8_sequential_progress wEx "pdf" 30 "out" _ (by simp)⟩
  unfold workerRun
  rw [if_neg (by simp : ¬(["a.mp4", "b.mp4", "c.mp4"] : List String) = [])]
  simp only [runLoop, process_video_a, process_video_b, process_video_c]
  rfl
